import Mathlib

/-!
Shallow embedding of the Provider Routing & Failover Engine of the
ai_model_gateway repository (app/services/model_router.py,
app/core/failover_utils.py, app/services/grok.py, app/services/gemini.py),
together with theorems settling the behavioural claims about it.

Machine strings are Lean `String`s, database rows are Lean structures, and
the stateful failover loop is modelled as explicit state passing with a fuel
parameter bounded by the number of credentials.
-/

namespace Gateway

/-! ## String helpers (substring test used by `_determine_provider`) -/

/-- Boolean test that `pat` occurs at the head of `l` (character lists). -/
def listStartsWith : List Char → List Char → Bool
  | _, [] => true
  | [], _ :: _ => false
  | a :: as, b :: bs => a = b && listStartsWith as bs

/-- Boolean test that `pat` occurs contiguously somewhere inside `l`. -/
def listHasInfix (l pat : List Char) : Bool :=
  match l with
  | [] => pat.isEmpty
  | _ :: as => listStartsWith l pat || listHasInfix as pat

/-- Python's `pat in s` substring test. -/
def strContains (s pat : String) : Bool :=
  listHasInfix s.data pat.data

/-- Python's `s.startswith(p)`. -/
def strStarts (s p : String) : Bool :=
  listStartsWith s.data p.data

/-- Python's `s.lower()` (character-wise lowering). -/
def lowerStr (s : String) : String :=
  ⟨s.data.map Char.toLower⟩

/-- Dropping the first `n` characters of a string (used to strip a
provider tag of known length). -/
def dropStr (s : String) (n : Nat) : String :=
  ⟨s.data.drop n⟩

/-! ## ProviderResolver (`ModelRouter._strip_provider_prefix`,
`ModelRouter._determine_provider`, model_router.py lines 60-84) -/

/-- The four upstream providers the router can select. -/
inductive Provider where
  | google
  | xai
  | gigachat
  | perplexity
deriving Repr, DecidableEq

/-- An HTTP error surfaced to the caller: status code plus an abstract
error-kind marker. -/
structure HttpErr where
  statusCode : Nat
deriving Repr, DecidableEq

/-- Embedding of `ModelRouter._strip_provider_prefix` (model_router.py
line 60-63): removes one leading `google/`, `x-ai/`, `sber/` or
`perplexity/` tag.  The Python regex substitutes the first match of
`^(google|x-ai|sber|perplexity)/`; since the four tags begin with distinct
characters, an if-chain is equivalent. -/
def stripProviderPfx (m : String) : String :=
  if strStarts m "google/" then dropStr m 7
  else if strStarts m "x-ai/" then dropStr m 5
  else if strStarts m "sber/" then dropStr m 5
  else if strStarts m "perplexity/" then dropStr m 11
  else m

/-- The `google` branch test of `_determine_provider` (line 71):
`model.startswith("google/") or "gemini" in model.lower()`. -/
def googleTok (m : String) : Bool :=
  strStarts m "google/" || strContains (lowerStr m) "gemini"

/-- The `x-ai` branch test (line 73). -/
def xaiTok (m : String) : Bool :=
  strStarts m "x-ai/" || strContains (lowerStr m) "grok"

/-- The `gigachat` branch test (line 75). -/
def gigachatTok (m : String) : Bool :=
  strStarts m "sber/" || strContains (lowerStr m) "gigachat"

/-- The `perplexity` branch test (line 77). -/
def perplexityTok (m : String) : Bool :=
  strStarts m "perplexity/" || strContains (lowerStr m) "sonar"
    || strContains (lowerStr m) "r1-1776"

/-- Embedding of `ModelRouter._determine_provider` (model_router.py lines
65-84).  Empty model name raises 400; otherwise the chain of
`startswith`/substring tests picks the provider, else 404. -/
def determineProvider (m : String) : Except HttpErr Provider :=
  if m = "" then .error ⟨400⟩
  else if googleTok m then .ok .google
  else if xaiTok m then .ok .xai
  else if gigachatTok m then .ok .gigachat
  else if perplexityTok m then .ok .perplexity
  else .error ⟨404⟩

/-! ## MessageNormalizer (`ModelRouter._convert_messages`, model_router.py
lines 636-754) -/

/-- One item of an OpenAI-style multi-part content list: a text part
(carrying `item["text"]`, default `""`) or any other part type, which the
converter ignores. -/
inductive Part where
  | text (s : String)
  | nonText
deriving Repr, DecidableEq

/-- The `content` field of an incoming message: a plain string, a list of
parts, or an unsupported value (message skipped). -/
inductive MsgContent where
  | str (s : String)
  | parts (l : List Part)
  | unsupported
deriving Repr, DecidableEq

/-- A raw incoming message: role string (empty string models a missing or
falsy role, which the converter skips) and content. -/
structure RawMsg where
  role : String
  content : MsgContent
deriving Repr, DecidableEq

/-- The text extraction step of `_convert_messages` (lines 674-686): a plain
string passes through; a part list keeps the texts of its `"text"` items and
joins them with a newline when at least one exists; anything else yields
nothing. -/
def extractText : MsgContent → Option String
  | .str s => some s
  | .parts l =>
      let ts := l.filterMap (fun p => match p with | .text s => some s | .nonText => none)
      if ts.isEmpty then none else some (String.intercalate "\n" ts)
  | .unsupported => none

/-- A processed message surviving the first filter of `_convert_messages`:
original index, role, extracted text. -/
structure ProcMsg where
  idx : Nat
  role : String
  text : String
deriving Repr, DecidableEq

/-- The first filtering pass over the raw messages (lines 664-691): drop
role-less messages and messages with no extractable text, keeping original
indices. -/
def processMessages (messages : List RawMsg) : List ProcMsg :=
  (messages.enum).filterMap (fun p =>
    if p.2.role = "" then none
    else (extractText p.2.content).map (fun t => ⟨p.1, p.2.role, t⟩))

/-- Gemini-side chat message produced for history entries
(schemas.ChatMessage with the converted role). -/
structure ChatMessage where
  role : String
  content : String
deriving Repr, DecidableEq

/-- The consecutive-same-role collapse of lines 745-752: keep an entry only
when its role differs from the last kept role. -/
def collapseRoles : Option String → List ChatMessage → List ChatMessage
  | _, [] => []
  | last, m :: rest =>
      if some m.role = last then collapseRoles last rest
      else m :: collapseRoles (some m.role) rest

/-- Embedding of `ModelRouter._convert_messages` (lines 636-754).  Returns
the Gemini prompt together with the converted history. -/
def convertMessages (messages : List RawMsg) : String × List ChatMessage :=
  let processed := processMessages messages
  if processed = [] then ("", [])
  else
    let sys? := processed.find? (fun m => m.role = "system")
    let lastUser? := processed.reverse.find? (fun m => m.role = "user")
    match lastUser? with
    | none => ("", [])
    | some lu =>
        let prompt :=
          match sys? with
          | some sm => if sm.text ≠ "" then sm.text ++ "\n\n" ++ lu.text else lu.text
          | none => lu.text
        let sysIdx : Option Nat := sys?.map (·.idx)
        let rawHistory := (processed.filter (fun m =>
            ¬ (some m.idx = sysIdx) ∧ m.idx ≠ lu.idx ∧ m.role ≠ "system")).map
          (fun m => ChatMessage.mk (if m.role = "user" then "user" else "model") m.text)
        (prompt, collapseRoles none rawHistory)

/-- The empty-prompt guard of `route_chat_completion` for the Gemini branch
(model_router.py lines 459-465): reject with HTTP 400 when the converted
prompt is empty, otherwise proceed with the prompt/history pair. -/
def googlePromptCheck (messages : List RawMsg) :
    Except HttpErr (String × List ChatMessage) :=
  let r := convertMessages messages
  if r.1 = "" then .error ⟨400⟩ else .ok r

/-! ## CredentialStore rows (`user_provider_keys` for one (owner, provider)
pair) and `attempt_automatic_failover` (failover_utils.py lines 20-230) -/

/-- One `user_provider_keys` row for a fixed (owner, provider) pair; the key
id, the `disabled_until` timestamp (abstract instants as naturals) and the
`is_selected` flag.  Secret material is irrelevant to routing and omitted
(decryption is assumed to succeed). -/
structure Credential where
  id : Nat
  disabledUntil : Option Nat
  isSelected : Bool
deriving Repr, DecidableEq

/-- The rows of one (owner, provider) pair, already in ascending
`created_at` order — exactly the order every query in failover_utils.py
requests. -/
structure DB where
  keys : List Credential
deriving Repr, DecidableEq

/-- All key ids, in creation order (`all_key_ids`, failover_utils.py
line 94). -/
def DB.keyIds (db : DB) : List Nat := db.keys.map (·.id)

/-- The available-key query of failover_utils.py lines 106-123: it filters
`disabled_until IS NULL` only (the in-the-past comparison is commented out
in the source), then keeps creation order. -/
def DB.availableIds (db : DB) : List Nat :=
  (db.keys.filter (fun k => k.disabledUntil = none)).map (·.id)

/-- `DISABLE_DURATION_MINUTES`, failover_utils.py line 18 (abstract time
units). -/
def DISABLE_DURATION : Nat := 5

/-- The 429 handling of failover_utils.py lines 62-77: a rate-limited key
gets `disabled_until = now + 5 minutes`; other error codes leave the rows
unchanged. -/
def quarantineIfRateLimited (db : DB) (failedKeyId errCode now : Nat) : DB :=
  if errCode = 429 then
    ⟨db.keys.map (fun k =>
      if k.id = failedKeyId then { k with disabledUntil := some (now + DISABLE_DURATION) } else k)⟩
  else db

/-- Writing the `is_selected` flag of one row (failover_utils.py lines
184-191). -/
def DB.setSelected (db : DB) (kid : Nat) (b : Bool) : DB :=
  ⟨db.keys.map (fun k => if k.id = kid then { k with isSelected := b } else k)⟩

/-- Python's `list.index` (failover_utils.py line 97): the position of the
first occurrence, or nothing (the `ValueError` branch of lines 98-100). -/
def pyIndex (l : List Nat) (x : Nat) : Option Nat :=
  match l with
  | [] => none
  | a :: as => if a = x then some 0 else (pyIndex as x).map (· + 1)

/-- The round-robin scan of failover_utils.py lines 140-150: starting at
offset `j` past the failed index, walk at most `steps` positions of the full
creation-order list modulo its length and return the first id that is in the
available set.  The source runs it with `j = 1` and `steps = num_keys`. -/
def rotateScan (allIds availIds : List Nat) (failedIdx : Nat) : Nat → Nat → Option Nat
  | 0, _ => none
  | steps + 1, j =>
      match allIds.get? ((failedIdx + j) % allIds.length) with
      | none => none
      | some cid =>
          if cid ∈ availIds then some cid
          else rotateScan allIds availIds failedIdx steps (j + 1)

/-- Embedding of `attempt_automatic_failover` (failover_utils.py lines
20-230) for one (owner, provider) pair.  `failedKey = none` models the
synthetic `no-key-yet-…` marker the router passes when it holds no key; such
a marker never occurs among `all_key_ids`, so `.index` raises and the
function returns nothing.  Returns the chosen replacement id (if any)
together with the updated rows (429 quarantine and `is_selected` flip). -/
def attemptAutomaticFailover (db : DB) (failedKey : Option Nat) (errCode now : Nat) :
    Option Nat × DB :=
  let db1 := match failedKey with
    | some fid => quarantineIfRateLimited db fid errCode now
    | none => db
  match failedKey with
  | none => (none, db1)
  | some fid =>
      let allIds := db1.keyIds
      if allIds = [] then (none, db1)
      else
        match pyIndex allIds fid with
        | none => (none, db1)
        | some failedIdx =>
            let availIds := db1.availableIds
            if availIds = [] ∨ availIds = [fid] then (none, db1)
            else
              match rotateScan allIds availIds failedIdx allIds.length 1 with
              | none => (none, db1)
              | some nextId => (some nextId, (db1.setSelected fid false).setSelected nextId true)

/-! ## The failover loop of `ModelRouter.route_chat_completion`
(model_router.py lines 339-632) -/

/-- What one upstream call with a given credential produces, as the router
observes it: a successful payload (abstract), an `HTTPException` with a
status code and a flag recording whether its detail message mentions the API
key (the substring tests of lines 555-556), or a `ValueError` with a flag
recording whether its message indicates an invalid API key (lines 558-562). -/
inductive CallOutcome where
  | success (payload : Nat)
  | httpError (code : Nat) (mentionsApiKey : Bool)
  | valueErr (mentionsInvalidKey : Bool)
deriving Repr, DecidableEq

/-- The key-error classifier of model_router.py lines 555-557: 401/403/429,
a 400 whose message mentions the API key, or — for the `xai` provider — any
400 at all. -/
def isKeyErrorCode (provider : String) (code : Nat) (mentions : Bool) : Bool :=
  code = 401 || code = 403 || code = 429 || (code = 400 && mentions)
    || (provider = "xai" && code = 400)

/-- How a loop attempt ends, mirroring the distinct raise sites of
`route_chat_completion`. -/
inductive FailureKind where
  | cycleExhausted
  | allKeysFailed
  | noUsableKey
  | upstreamError
  | invalidValue
deriving Repr, DecidableEq

/-- The overall outcome of `route_chat_completion`: success payload with the
credential that produced it, an HTTP failure (status code and raise site),
or the out-of-fuel marker (proved unreachable for the fuel the wrapper
passes). -/
inductive RouteResult where
  | success (payload : Nat) (keyId : Nat)
  | httpFailure (statusCode : Nat) (kind : FailureKind)
  | outOfFuel
deriving Repr, DecidableEq

/-- The HTTP status a routing outcome surfaces, when it is a failure. -/
def RouteResult.statusCode? : RouteResult → Option Nat
  | .httpFailure s _ => some s
  | _ => none

/-- Observable record of one routing run: which key ids were used for
upstream calls (in order), how many times `attempt_automatic_failover` ran,
and the result. -/
structure RouteTrace where
  calls : List Nat
  failovers : Nat
  result : RouteResult
deriving Repr, DecidableEq

/-- One (owner, provider) request environment: the behaviour of each
credential when called upstream is a fixed function of its id. -/
def routeLoop (call : Nat → CallOutcome) (provider : String) (now : Nat) :
    Nat → DB → Option Nat → List Nat → List Nat → Nat → RouteTrace
  | 0, _, _, _, calls, fo => ⟨calls, fo, .outOfFuel⟩
  | fuel + 1, db, current, tried, calls, fo =>
      match current with
      | none =>
          match attemptAutomaticFailover db none 400 now with
          | (none, _) => ⟨calls, fo + 1, .httpFailure 503 .noUsableKey⟩
          | (some nid, db1) =>
              if nid ∈ tried then ⟨calls, fo + 1, .httpFailure 503 .cycleExhausted⟩
              else routeLoop call provider now fuel db1 (some nid) (nid :: tried) calls (fo + 1)
      | some kid =>
          let calls1 := calls ++ [kid]
          match call kid with
          | .success p => ⟨calls1, fo, .success p kid⟩
          | .httpError code mentions =>
              if isKeyErrorCode provider code mentions then
                match attemptAutomaticFailover db (some kid) code now with
                | (none, _) => ⟨calls1, fo + 1, .httpFailure 503 .allKeysFailed⟩
                | (some nid, db1) =>
                    if nid ∈ tried then ⟨calls1, fo + 1, .httpFailure 503 .cycleExhausted⟩
                    else routeLoop call provider now fuel db1 (some nid) (nid :: tried) calls1 (fo + 1)
              else ⟨calls1, fo, .httpFailure code .upstreamError⟩
          | .valueErr mentions =>
              if mentions then
                match attemptAutomaticFailover db (some kid) 401 now with
                | (none, _) => ⟨calls1, fo + 1, .httpFailure 503 .allKeysFailed⟩
                | (some nid, db1) =>
                    if nid ∈ tried then ⟨calls1, fo + 1, .httpFailure 503 .cycleExhausted⟩
                    else routeLoop call provider now fuel db1 (some nid) (nid :: tried) calls1 (fo + 1)
              else ⟨calls1, fo, .httpFailure 400 .invalidValue⟩

/-- The initially selected credential (the `is_selected = True, limit 1`
query of model_router.py lines 377-385, rows in creation order). -/
def initialSelectedKey (db : DB) : Option Nat :=
  (db.keys.find? (·.isSelected)).map (·.id)

/-- Embedding of the credential-rotation behaviour of
`ModelRouter.route_chat_completion` (model_router.py lines 339-632): resolve
the selected credential, seed the tried set with it, and run the failover
loop with fuel one larger than the number of credentials (shown sufficient
below). -/
def routeChat (db : DB) (call : Nat → CallOutcome) (provider : String) (now : Nat) :
    RouteTrace :=
  let init := initialSelectedKey db
  let tried := match init with | some kid => [kid] | none => []
  routeLoop call provider now (db.keys.length + 1) db init tried [] 0

/-! ## The streaming failover loop of `ModelRouter.stream_chat_completion`
(model_router.py lines 977-1336) -/

/-- A failure raised by a provider stream generator, as the router's handler
at lines 1251-1274 classifies it. -/
inductive StreamFailure where
  | httpError (code : Nat) (mentionsApiKey : Bool)
  | valueErr (mentionsInvalidKey : Bool)
deriving Repr, DecidableEq

/-- What streaming with a given credential does: the content chunks its
generator yields (each forwarded to the client as it arrives, lines
1238-1239), followed either by a clean finish (`none`) or by a raised
failure.  For the Gemini wrapper the failure is recorded in `stream_error`
and re-raised after the drain (lines 1209-1214 and 1242-1243); for the other
providers the generator raises directly; both give the router the same
observable behaviour: the chunks are already forwarded when the failure is
classified. -/
def StreamBehaviour := Nat → List String × Option StreamFailure

/-- An event of the SSE output the client sees. -/
inductive SSEEvent where
  | contentChunk (s : String)
  | errorEvent (code : Nat)
  | doneSentinel
deriving Repr, DecidableEq

/-- Observable record of a streaming run: the SSE events emitted, the key
ids used for upstream stream calls (in order), and whether fuel ran out
(unreachable for the fuel the wrapper passes). -/
structure StreamTrace where
  events : List SSEEvent
  calls : List Nat
  fuelOut : Bool
deriving Repr, DecidableEq

/-- The `while True` failover loop of `stream_chat_completion` (lines
1079-1331), with the same state as `routeLoop` plus the SSE events already
forwarded to the client. -/
def streamLoop (scall : StreamBehaviour) (provider : String) (now : Nat) :
    Nat → DB → Option Nat → List Nat → List SSEEvent → List Nat → StreamTrace
  | 0, _, _, _, evs, calls => ⟨evs, calls, true⟩
  | fuel + 1, db, current, tried, evs, calls =>
      match current with
      | none =>
          match attemptAutomaticFailover db none 400 now with
          | (none, _) => ⟨evs ++ [.errorEvent 503, .doneSentinel], calls, false⟩
          | (some nid, db1) =>
              if nid ∈ tried then ⟨evs ++ [.errorEvent 503, .doneSentinel], calls, false⟩
              else streamLoop scall provider now fuel db1 (some nid) (nid :: tried) evs calls
      | some kid =>
          let calls1 := calls ++ [kid]
          let att := scall kid
          let evs1 := evs ++ att.1.map .contentChunk
          match att.2 with
          | none => ⟨evs1 ++ [.doneSentinel], calls1, false⟩
          | some f =>
              let classified : Option Nat :=
                match f with
                | .httpError code mentions =>
                    if isKeyErrorCode provider code mentions then some code else none
                | .valueErr mentions => if mentions then some 401 else none
              match classified with
              | some code =>
                  match attemptAutomaticFailover db (some kid) code now with
                  | (none, _) => ⟨evs1 ++ [.errorEvent 503, .doneSentinel], calls1, false⟩
                  | (some nid, db1) =>
                      if nid ∈ tried then
                        ⟨evs1 ++ [.errorEvent 503, .doneSentinel], calls1, false⟩
                      else streamLoop scall provider now fuel db1 (some nid) (nid :: tried) evs1 calls1
              | none =>
                  match f with
                  | .httpError code _ =>
                      let finalCode := if code = 500 then 503 else code
                      ⟨evs1 ++ [.errorEvent finalCode, .doneSentinel], calls1, false⟩
                  | .valueErr _ => ⟨evs1 ++ [.errorEvent 400, .doneSentinel], calls1, false⟩

/-- Embedding of the credential-rotation behaviour of
`ModelRouter.stream_chat_completion` (model_router.py lines 977-1336). -/
def streamChat (db : DB) (scall : StreamBehaviour) (provider : String) (now : Nat) :
    StreamTrace :=
  let init := initialSelectedKey db
  let tried := match init with | some kid => [kid] | none => []
  streamLoop scall provider now (db.keys.length + 1) db init tried [] []

/-! ## The Grok stream normalizer (`GrokService.stream_chat_completion`,
grok.py lines 347-492) and the router's terminal sentinel (model_router.py
lines 1238-1248) -/

/-- A complete usage triple carried by an upstream chunk (grok.py lines
418-430 only record usage when all three token counts are present). -/
structure Usage where
  promptTokens : Nat
  completionTokens : Nat
  totalTokens : Nat
deriving Repr, DecidableEq

/-- One line of the upstream Grok SSE stream as `_stream_request` delivers
it: the `data: [DONE]` line, a `data:` JSON chunk (with its delta role,
delta content, finish reason — `some` models a truthy value — and usage
triple), or any other line, which the normalizer ignores. -/
inductive GrokLine where
  | doneLine
  | dataLine (role content finish : Option String) (usage : Option Usage)
  | otherLine
deriving Repr, DecidableEq

/-- One item of the normalized SSE output: a chat-completion chunk (delta
role, delta content, finish reason, whether a usage object is attached) or
the `data: [DONE]` sentinel. -/
inductive SSEItem where
  | chunk (role content finish : Option String) (hasUsage : Bool)
  | doneSentinel
deriving Repr, DecidableEq

/-- The per-line loop of `GrokService.stream_chat_completion` (grok.py lines
389-480) followed by the generator's trailing `yield "data: [DONE]"` (line
492).  State: `first_chunk` and the last complete usage triple seen. -/
def grokProcess (firstChunk : Bool) (finalUsage : Option Usage) :
    List GrokLine → List SSEItem
  | [] => [.doneSentinel]
  | .doneLine :: _ =>
      (if finalUsage.isSome then [SSEItem.chunk none none (some "stop") true] else [])
        ++ [.doneSentinel, .doneSentinel]
  | .dataLine role content finish usage :: rest =>
      let fu := match usage with | some u => some u | none => finalUsage
      let roleOut : Option String × Bool :=
        if firstChunk && role.isNone then (some "assistant", false)
        else if role.isSome then (role, false)
        else (none, firstChunk)
      let first2 := if content.isSome then false else roleOut.2
      let emitted :=
        if roleOut.1.isSome || content.isSome || finish.isSome then
          [SSEItem.chunk roleOut.1 content finish (finish.isSome && fu.isSome)]
        else []
      emitted ++ grokProcess first2 fu rest
  | .otherLine :: rest => grokProcess firstChunk finalUsage rest

/-- The full normalized output the client sees on a successfully drained
Grok stream: the generator's items followed by the router's own
`data: [DONE]` (model_router.py line 1247). -/
def grokRouterStream (upstream : List GrokLine) : List SSEItem :=
  grokProcess true none upstream ++ [.doneSentinel]

/-- Counts the `data: [DONE]` sentinels of an output. -/
def countDone (l : List SSEItem) : Nat :=
  (l.filter (fun i => match i with | .doneSentinel => true | _ => false)).length

/-- Counts the chunks whose `finish_reason` is non-null. -/
def countFinish (l : List SSEItem) : Nat :=
  (l.filter (fun i => match i with | .chunk _ _ f _ => f.isSome | _ => false)).length

/-- Counts the chunks whose delta carries a role. -/
def countRole (l : List SSEItem) : Nat :=
  (l.filter (fun i => match i with | .chunk r _ _ _ => r.isSome | _ => false)).length

/-! ## Derived predicates used in claim statements -/

/-- Whether an upstream call outcome is classified as a key-shaped failure
by the error handler of `route_chat_completion` (model_router.py lines
545-562): never for a success; the `isKeyErrorCode` test for an
`HTTPException`; the invalid-key message test for a `ValueError`. -/
def isKeyOutcome (provider : String) : CallOutcome → Bool
  | .success _ => false
  | .httpError code mentions => isKeyErrorCode provider code mentions
  | .valueErr mentions => mentions

/-- Modelled from the spec: the rotation candidate set the specification
describes — "all credentials for (owner, provider) with `disabled_until`
null or in the past, ordered by creation time".  This definition follows the
spec's words (spec.md §4.3); the in-the-past disjunct is absent from the
code, which is what claim C5 is tested against. -/
def claimRotationCandidates (db : DB) (now : Nat) : List Nat :=
  (db.keys.filter (fun k =>
    match k.disabledUntil with
    | none => true
    | some t => t ≤ now)).map (·.id)

/-- Modelled from the spec: the replacement the specification describes —
the first candidate strictly after the failed credential in a round-robin
over the creation-time ordering, wrapping around (spec.md §4.3). -/
def claimRotateNext (db : DB) (failedId now : Nat) : Option Nat :=
  match pyIndex db.keyIds failedId with
  | none => none
  | some i =>
      ((db.keyIds.rotateLeft (i + 1)).filter
        (fun kid => kid ∈ claimRotationCandidates db now ∧ kid ≠ failedId)).head?

/-! ## Helper lemmas about the credential store operations -/

theorem keyIds_map_of_id_preserving (keys : List Credential) (f : Credential → Credential)
    (hf : ∀ k, (f k).id = k.id) :
    DB.keyIds ⟨keys.map f⟩ = DB.keyIds ⟨keys⟩ := by
  induction keys with
  | nil => rfl
  | cons a as ih =>
      simp only [DB.keyIds, List.map_cons, List.map_map] at *
      simp [hf a, ih]

theorem availableIds_map_of_preserving (keys : List Credential) (f : Credential → Credential)
    (hf : ∀ k, (f k).id = k.id) (hd : ∀ k, (f k).disabledUntil = k.disabledUntil) :
    DB.availableIds ⟨keys.map f⟩ = DB.availableIds ⟨keys⟩ := by
  induction keys with
  | nil => rfl
  | cons a as ih =>
      simp only [DB.availableIds, List.map_cons, List.filter_cons, hd a] at *
      by_cases h : a.disabledUntil = none
      · simp [h, hf a, ih]
      · simp [h, ih]

theorem quarantine_keyIds (db : DB) (fid code now : Nat) :
    (quarantineIfRateLimited db fid code now).keyIds = db.keyIds := by
  unfold quarantineIfRateLimited
  split
  · exact keyIds_map_of_id_preserving db.keys _
      (fun k => by by_cases h : k.id = fid <;> simp [h])
  · rfl

theorem quarantine_noop (db : DB) (fid code now : Nat) (h : code ≠ 429) :
    quarantineIfRateLimited db fid code now = db := by
  unfold quarantineIfRateLimited
  simp [h]

theorem setSelected_keyIds (db : DB) (kid : Nat) (b : Bool) :
    (db.setSelected kid b).keyIds = db.keyIds := by
  unfold DB.setSelected
  exact keyIds_map_of_id_preserving db.keys _
    (fun k => by by_cases h : k.id = kid <;> simp [h])

theorem setSelected_availableIds (db : DB) (kid : Nat) (b : Bool) :
    (db.setSelected kid b).availableIds = db.availableIds := by
  unfold DB.setSelected
  exact availableIds_map_of_preserving db.keys _
    (fun k => by by_cases h : k.id = kid <;> simp [h])
    (fun k => by by_cases h : k.id = kid <;> simp [h])

theorem availableIds_subset_keyIds (db : DB) : db.availableIds ⊆ db.keyIds := by
  intro x hx
  simp only [DB.availableIds, DB.keyIds, List.mem_map, List.mem_filter] at *
  obtain ⟨k, ⟨hk, _⟩, hid⟩ := hx
  exact ⟨k, hk, hid⟩

theorem rotateScan_mem {allIds availIds : List Nat} {fidx : Nat} :
    ∀ {steps j cid}, rotateScan allIds availIds fidx steps j = some cid →
      cid ∈ availIds ∧ cid ∈ allIds := by
  intro steps
  induction steps with
  | zero => intro j cid h; simp [rotateScan] at h
  | succ n ih =>
      intro j cid h
      unfold rotateScan at h
      cases hg : allIds.get? ((fidx + j) % allIds.length) with
      | none => rw [hg] at h; exact absurd h (by simp)
      | some c =>
          rw [hg] at h
          by_cases hc : c ∈ availIds
          · simp only [hc, if_true] at h
            cases h
            exact ⟨hc, List.get?_mem hg⟩
          · simp only [hc, if_false] at h
            exact ih h

theorem attempt_marker_eq (db : DB) (code now : Nat) :
    attemptAutomaticFailover db none code now = (none, db) := rfl

/-- Inversion of a successful `attempt_automatic_failover`: the replacement
came out of the round-robin scan over the (possibly quarantined) rows. -/
theorem attempt_some_inv {db : DB} {fid code now nid : Nat} {db1 : DB}
    (h : attemptAutomaticFailover db (some fid) code now = (some nid, db1)) :
    let dbq := quarantineIfRateLimited db fid code now
    ∃ i, pyIndex dbq.keyIds fid = some i ∧
      ¬ (dbq.availableIds = [] ∨ dbq.availableIds = [fid]) ∧
      rotateScan dbq.keyIds dbq.availableIds i dbq.keyIds.length 1 = some nid ∧
      db1 = (dbq.setSelected fid false).setSelected nid true := by
  intro dbq
  unfold attemptAutomaticFailover at h
  simp only [] at h
  split at h
  · exact absurd h (by simp)
  · rename_i heq
    split at h
    · exact absurd h (by simp)
    · rename_i i hidx
      split at h
      · exact absurd h (by simp)
      · rename_i hguard
        split at h
        · exact absurd h (by simp)
        · rename_i nid2 hrot
          rw [Prod.mk.injEq] at h
          obtain ⟨h1, h2⟩ := h
          cases h1
          exact ⟨i, hidx, hguard, hrot, h2.symm⟩

theorem attempt_some_mem {db : DB} {fid code now nid : Nat} {db1 : DB}
    (h : attemptAutomaticFailover db (some fid) code now = (some nid, db1)) :
    nid ∈ db.keyIds := by
  obtain ⟨i, _, _, hrot, _⟩ := attempt_some_inv h
  have := (rotateScan_mem hrot).2
  rwa [quarantine_keyIds] at this

theorem attempt_some_db_keyIds {db : DB} {fid code now nid : Nat} {db1 : DB}
    (h : attemptAutomaticFailover db (some fid) code now = (some nid, db1)) :
    db1.keyIds = db.keyIds := by
  obtain ⟨i, _, _, _, hdb⟩ := attempt_some_inv h
  rw [hdb, setSelected_keyIds, setSelected_keyIds, quarantine_keyIds]

theorem initialSelectedKey_mem {db : DB} {k0 : Nat}
    (h : initialSelectedKey db = some k0) : k0 ∈ db.keyIds := by
  unfold initialSelectedKey at h
  cases hf : db.keys.find? (·.isSelected) with
  | none => rw [hf] at h; exact absurd h (by simp)
  | some c =>
      rw [hf] at h
      have hc : c.id = k0 := by simpa using h
      exact hc ▸ List.mem_map_of_mem _ (List.mem_of_find?_eq_some hf)

/-! ## Termination and exhaustion of the failover loop -/

/-- Core invariant argument: while the router holds a credential and every
credential's outcome is key-shaped, the loop ends in one of the two
503-exhaustion raise sites within the available fuel, because the tried set
grows by a fresh id from the finite credential list on every iteration. -/
theorem routeLoop_exhausts (call : Nat → CallOutcome) (provider : String) (now : Nat)
    (ids0 : List Nat)
    (hall : ∀ kid ∈ ids0, isKeyOutcome provider (call kid) = true) :
    ∀ fuel (db : DB) (kid : Nat) (tried calls : List Nat) (fo : Nat),
      db.keyIds = ids0 → tried ⊆ ids0 → tried.Nodup → kid ∈ tried →
      ids0.length + 1 ≤ fuel + tried.length →
      (routeLoop call provider now fuel db (some kid) tried calls fo).result =
          .httpFailure 503 .cycleExhausted ∨
      (routeLoop call provider now fuel db (some kid) tried calls fo).result =
          .httpFailure 503 .allKeysFailed := by
  intro fuel
  induction fuel with
  | zero =>
      intro db kid tried calls fo hids htried hnt hkid hfuel
      have := (hnt.subperm htried).length_le
      omega
  | succ fuel ih =>
      intro db kid tried calls fo hids htried hnt hkid hfuel
      have hkid0 : kid ∈ ids0 := htried hkid
      have hko := hall kid hkid0
      simp only [routeLoop]
      cases hc : call kid with
      | success p => rw [hc] at hko; simp [isKeyOutcome] at hko
      | httpError code m =>
          have hk : isKeyErrorCode provider code m = true := by
            rw [hc] at hko; simpa [isKeyOutcome] using hko
          simp only [hk, if_true]
          cases ha : attemptAutomaticFailover db (some kid) code now with
          | mk onid db1 =>
              cases onid with
              | none => simp
              | some nid =>
                  by_cases hmem : nid ∈ tried
                  · simp [hmem]
                  · simp only [hmem, if_false]
                    exact ih db1 nid (nid :: tried) (calls ++ [kid]) (fo + 1)
                      (by rw [attempt_some_db_keyIds ha, hids])
                      (by
                        intro x hx
                        rcases List.mem_cons.mp hx with h | h
                        · subst h; rw [← hids]; exact attempt_some_mem ha
                        · exact htried h)
                      (List.Nodup.cons hmem hnt)
                      (List.mem_cons_self _ _)
                      (by simp only [List.length_cons]; omega)
      | valueErr m =>
          have hm : m = true := by rw [hc] at hko; simpa [isKeyOutcome] using hko
          subst hm
          simp only [if_true]
          cases ha : attemptAutomaticFailover db (some kid) 401 now with
          | mk onid db1 =>
              cases onid with
              | none => simp
              | some nid =>
                  by_cases hmem : nid ∈ tried
                  · simp [hmem]
                  · simp only [hmem, if_false]
                    exact ih db1 nid (nid :: tried) (calls ++ [kid]) (fo + 1)
                      (by rw [attempt_some_db_keyIds ha, hids])
                      (by
                        intro x hx
                        rcases List.mem_cons.mp hx with h | h
                        · subst h; rw [← hids]; exact attempt_some_mem ha
                        · exact htried h)
                      (List.Nodup.cons hmem hnt)
                      (List.mem_cons_self _ _)
                      (by simp only [List.length_cons]; omega)

/-- C1: for every request whose credentials all return key-shaped errors,
the failover loop of `route_chat_completion` terminates and the request
fails at one of the two exhaustion raise sites, always with HTTP 503 and
never with the last upstream's raw status code. -/
theorem routeChat_all_key_errors_terminates_503
    (db : DB) (call : Nat → CallOutcome) (provider : String) (now : Nat) (k0 : Nat)
    (hsel : initialSelectedKey db = some k0)
    (hall : ∀ kid ∈ db.keyIds, isKeyOutcome provider (call kid) = true) :
    (routeChat db call provider now).result = .httpFailure 503 .cycleExhausted ∨
    (routeChat db call provider now).result = .httpFailure 503 .allKeysFailed := by
  have hmem : k0 ∈ db.keyIds := initialSelectedKey_mem hsel
  have hlen : db.keys.length = db.keyIds.length := by simp [DB.keyIds]
  unfold routeChat
  rw [hsel]
  exact routeLoop_exhausts call provider now db.keyIds hall
    (db.keys.length + 1) db k0 [k0] [] 0 rfl
    (by intro x hx; rcases List.mem_singleton.mp hx with rfl; exact hmem)
    (List.nodup_singleton _) (List.mem_singleton_self _) (by simp [hlen])

/-- Witness for C1 at a concrete two-credential store where both
credentials fail with HTTP 401. -/
theorem routeChat_all_key_errors_terminates_503_witness :
    (routeChat ⟨[⟨1, none, true⟩, ⟨2, none, false⟩]⟩
        (fun _ => .httpError 401 false) "google" 0).result =
          .httpFailure 503 .cycleExhausted ∨
    (routeChat ⟨[⟨1, none, true⟩, ⟨2, none, false⟩]⟩
        (fun _ => .httpError 401 false) "google" 0).result =
          .httpFailure 503 .allKeysFailed :=
  routeChat_all_key_errors_terminates_503 _ _ "google" 0 1
    (by decide) (by decide)

/-! ## Each credential is tried at most once (C2) -/

theorem pyIndex_of_nodup_get? :
    ∀ (l : List Nat) (i x : Nat), l.Nodup → l.get? i = some x →
      pyIndex l x = some i := by
  intro l
  induction l with
  | nil => intro i x _ h; simp at h
  | cons a as ih =>
      intro i x hnd h
      cases i with
      | zero =>
          simp only [List.get?_cons_zero, Option.some.injEq] at h
          subst h
          simp [pyIndex]
      | succ n =>
          simp only [List.get?_cons_succ] at h
          have hx : x ∈ as := List.get?_mem h
          have hax : ¬ (a = x) := by
            intro he; subst he; exact (List.nodup_cons.mp hnd).1 hx
          simp [pyIndex, hax, ih n x (List.nodup_cons.mp hnd).2 h]

theorem get?_isSome_of_lt {l : List Nat} {i : Nat} (h : i < l.length) :
    ∃ x, l.get? i = some x := by
  cases hg : l.get? i with
  | none => rw [List.get?_eq_none] at hg; omega
  | some x => exact ⟨x, rfl⟩

/-- When every row is available (`disabled_until` null everywhere) and the
failed credential sits at position `i` with a successor at `i + 1`, the
failover routine hands back exactly that successor. -/
theorem attempt_next_in_order {db : DB} {i fid nid code now : Nat}
    (hnodup : db.keyIds.Nodup)
    (havail : db.availableIds = db.keyIds)
    (hcode : code ≠ 429)
    (hi : db.keyIds.get? i = some fid) (hi1 : db.keyIds.get? (i + 1) = some nid) :
    ∃ db1, attemptAutomaticFailover db (some fid) code now = (some nid, db1) ∧
      db1.keyIds = db.keyIds ∧ db1.availableIds = db.availableIds := by
  have hq := quarantine_noop db fid code now hcode
  have hlt : i + 1 < db.keyIds.length := by
    by_contra hge
    push_neg at hge
    rw [List.get?_eq_none.mpr hge] at hi1
    cases hi1
  have hne : ¬ (db.keyIds = []) := by
    intro he; rw [he] at hlt; simp at hlt
  have hpy : pyIndex db.keyIds fid = some i := pyIndex_of_nodup_get? _ i fid hnodup hi
  have hmem1 : nid ∈ db.keyIds := List.get?_mem hi1
  have hguard : ¬ (db.availableIds = [] ∨ db.availableIds = [fid]) := by
    rw [havail]
    rintro (he | he)
    · exact hne he
    · rw [he] at hlt; simp at hlt
  have hscan : rotateScan db.keyIds db.availableIds i db.keyIds.length 1 = some nid := by
    obtain ⟨m, hm⟩ : ∃ m, db.keyIds.length = m + 1 := ⟨db.keyIds.length - 1, by omega⟩
    rw [hm]
    unfold rotateScan
    rw [Nat.mod_eq_of_lt hlt, hi1]
    simp [havail, hmem1]
  refine ⟨(db.setSelected fid false).setSelected nid true, ?_, ?_, ?_⟩
  · unfold attemptAutomaticFailover
    simp only [hq, hpy, hscan]
    rw [if_neg hne, if_neg hguard]
  · rw [setSelected_keyIds, setSelected_keyIds]
  · rw [setSelected_availableIds, setSelected_availableIds]

/-- The tried-set discipline of the loop: every id used for an upstream call
is recorded before the call and never reused, so the trace of calls has no
duplicates and stays inside the credential list. -/
theorem routeLoop_calls_nodup (call : Nat → CallOutcome) (provider : String) (now : Nat)
    (ids0 : List Nat) :
    ∀ fuel (db : DB) (cur : Option Nat) (tried calls : List Nat) (fo : Nat),
      db.keyIds = ids0 → tried ⊆ ids0 →
      calls.Nodup → calls ⊆ tried →
      (∀ k, cur = some k → k ∈ tried ∧ k ∉ calls) →
      (routeLoop call provider now fuel db cur tried calls fo).calls.Nodup ∧
      (routeLoop call provider now fuel db cur tried calls fo).calls ⊆ ids0 := by
  intro fuel
  induction fuel with
  | zero =>
      intro db cur tried calls fo hids htried hnc hct _
      exact ⟨hnc, fun x hx => htried (hct hx)⟩
  | succ fuel ih =>
      intro db cur tried calls fo hids htried hnc hct hcur
      cases cur with
      | none =>
          simp only [routeLoop, attempt_marker_eq]
          exact ⟨hnc, fun x hx => htried (hct hx)⟩
      | some kid =>
          obtain ⟨hkt, hkc⟩ := hcur kid rfl
          have hnc1 : (calls ++ [kid]).Nodup := by
            rw [List.nodup_append]
            exact ⟨hnc, List.nodup_singleton _,
              fun x hx hx1 => hkc ((List.mem_singleton.mp hx1) ▸ hx)⟩
          have hct1 : (calls ++ [kid]) ⊆ tried := by
            intro x hx
            rcases List.mem_append.mp hx with h | h
            · exact hct h
            · exact (List.mem_singleton.mp h) ▸ hkt
          have hsub1 : (calls ++ [kid]) ⊆ ids0 := fun x hx => htried (hct1 hx)
          simp only [routeLoop]
          cases call kid with
          | success p => exact ⟨hnc1, hsub1⟩
          | httpError code m =>
              by_cases hk : isKeyErrorCode provider code m
              · simp only [hk, if_true]
                cases ha : attemptAutomaticFailover db (some kid) code now with
                | mk onid db1 =>
                    cases onid with
                    | none => exact ⟨hnc1, hsub1⟩
                    | some nid =>
                        by_cases hmem : nid ∈ tried
                        · simp only [hmem, if_true]
                          exact ⟨hnc1, hsub1⟩
                        · simp only [hmem, if_false]
                          refine ih db1 (some nid) (nid :: tried) (calls ++ [kid]) (fo + 1)
                            (by rw [attempt_some_db_keyIds ha, hids]) ?_ hnc1
                            (fun x hx => List.mem_cons_of_mem _ (hct1 hx)) ?_
                          · intro x hx
                            rcases List.mem_cons.mp hx with h | h
                            · subst h; rw [← hids]; exact attempt_some_mem ha
                            · exact htried h
                          · intro k hk2
                            cases hk2
                            exact ⟨List.mem_cons_self _ _, fun hin => hmem (hct1 hin)⟩
              · simp only [hk, if_false]
                exact ⟨hnc1, hsub1⟩
          | valueErr m =>
              cases m with
              | false =>
                  simp only [Bool.false_eq_true, if_false]
                  exact ⟨hnc1, hsub1⟩
              | true =>
                  simp only [if_true]
                  cases ha : attemptAutomaticFailover db (some kid) 401 now with
                  | mk onid db1 =>
                      cases onid with
                      | none => exact ⟨hnc1, hsub1⟩
                      | some nid =>
                          by_cases hmem : nid ∈ tried
                          · simp only [hmem, if_true]
                            exact ⟨hnc1, hsub1⟩
                          · simp only [hmem, if_false]
                            refine ih db1 (some nid) (nid :: tried) (calls ++ [kid]) (fo + 1)
                              (by rw [attempt_some_db_keyIds ha, hids]) ?_ hnc1
                              (fun x hx => List.mem_cons_of_mem _ (hct1 hx)) ?_
                            · intro x hx
                              rcases List.mem_cons.mp hx with h | h
                              · subst h; rw [← hids]; exact attempt_some_mem ha
                              · exact htried h
                            · intro k hk2
                              cases hk2
                              exact ⟨List.mem_cons_self _ _, fun hin => hmem (hct1 hin)⟩

/-- The concrete spec scenario: from position `i` with `m` failing
credentials left before the succeeding last one, the loop walks the creation
order one credential at a time and returns the success of the last. -/
theorem routeLoop_scenario (call : Nat → CallOutcome) (provider : String) (now : Nat)
    (ids : List Nat) (hnodup : ids.Nodup) (p klast : Nat)
    (hlast : ids.get? (ids.length - 1) = some klast)
    (hsucc : call klast = .success p)
    (hfail : ∀ j kid, j + 1 < ids.length → ids.get? j = some kid →
        call kid = .httpError 401 false) :
    ∀ m i kid (db : DB) (tried calls : List Nat) (fo fuel : Nat),
      i + m + 1 = ids.length →
      ids.get? i = some kid →
      db.keyIds = ids → db.availableIds = ids →
      (∀ x ∈ tried, ∃ j, j ≤ i ∧ ids.get? j = some x) →
      m < fuel →
      routeLoop call provider now fuel db (some kid) tried calls fo =
        ⟨calls ++ ids.drop i, fo + m, .success p klast⟩ := by
  intro m
  induction m with
  | zero =>
      intro i kid db tried calls fo fuel hsum hi hids havail htried hfuel
      obtain ⟨fuel, rfl⟩ : ∃ f, fuel = f + 1 := ⟨fuel - 1, by omega⟩
      have hik : i = ids.length - 1 := by omega
      have hkid : kid = klast := by
        rw [hik] at hi; rw [hi] at hlast; exact Option.some.inj hlast
      subst hkid
      have hilt : i < ids.length := by omega
      have hdrop : ids.drop i = [kid] := by
        rw [List.drop_eq_getElem_cons hilt]
        have hgl : ids[i] = kid := by
          have := List.get?_eq_getElem? ids i
          rw [hi, List.getElem?_eq_getElem hilt] at this
          exact (Option.some.inj this).symm
        rw [hgl]
        have : ids.drop (i + 1) = [] := by
          rw [List.drop_eq_nil_iff]
          omega
        rw [this]
      simp only [routeLoop, hsucc, hdrop, Nat.add_zero]
  | succ m ih =>
      intro i kid db tried calls fo fuel hsum hi hids havail htried hfuel
      obtain ⟨fuel, rfl⟩ : ∃ f, fuel = f + 1 := ⟨fuel - 1, by omega⟩
      have hc : call kid = .httpError 401 false := hfail i kid (by omega) hi
      have hlt1 : i + 1 < ids.length := by omega
      obtain ⟨nid, hi1⟩ := get?_isSome_of_lt (l := ids) (i := i + 1) hlt1
      obtain ⟨db1, hatt, hk1, ha1⟩ := @attempt_next_in_order db i kid nid 401 now
        (hids ▸ hnodup) (by rw [hids, havail]) (by omega)
        (by rw [hids]; exact hi) (by rw [hids]; exact hi1)
      have hnotin : nid ∉ tried := by
        intro hmem
        obtain ⟨j, hj, hjeq⟩ := htried nid hmem
        have hjlt : j < ids.length := by
          by_contra hge
          push_neg at hge
          rw [List.get?_eq_none.mpr hge] at hjeq
          cases hjeq
        have hji : j = i + 1 := by
          apply @List.getElem?_inj _ _ _ ids hjlt hnodup
          rw [← List.get?_eq_getElem?, ← List.get?_eq_getElem?, hjeq, hi1]
        omega
      have hkey : isKeyErrorCode provider 401 false = true := by
        simp [isKeyErrorCode]
      simp only [routeLoop, hc, hkey, if_true, hatt, hnotin, if_false]
      rw [ih (i + 1) nid db1 (nid :: tried) (calls ++ [kid]) (fo + 1) fuel
        (by omega) hi1 (by rw [hk1, hids]) (by rw [ha1, havail]) ?_ (by omega)]
      · have hilt : i < ids.length := by omega
        have hgl : ids[i] = kid := by
          have := List.get?_eq_getElem? ids i
          rw [hi, List.getElem?_eq_getElem hilt] at this
          exact (Option.some.inj this).symm
        rw [List.drop_eq_getElem_cons hilt, hgl]
        simp only [List.append_assoc, List.singleton_append]
        congr 1
        omega
      · intro x hx
        rcases List.mem_cons.mp hx with h | h
        · subst h; exact ⟨i + 1, le_refl _, hi1⟩
        · obtain ⟨j, hj, hjeq⟩ := htried x h
          exact ⟨j, by omega, hjeq⟩

/-- C2: each credential id is used for at most one upstream call — the trace
of upstream calls has no duplicate id and its length is bounded by the
number of credentials, for every behaviour of the upstreams — and in the
spec's scenario (credentials 1..N-1 in creation order return a key-shaped
error, credential N succeeds, credential 1 initially selected, none
quarantined) the loop calls every credential exactly once in creation order
and returns the success of credential N. -/
theorem routeChat_each_credential_at_most_once
    (db : DB) (call : Nat → CallOutcome) (provider : String) (now : Nat)
    (p klast k0 : Nat)
    (hnodup : db.keyIds.Nodup)
    (havail : db.availableIds = db.keyIds)
    (hsel : initialSelectedKey db = some k0)
    (hfirst : db.keyIds.get? 0 = some k0)
    (hfail : ∀ j kid, j + 1 < db.keyIds.length → db.keyIds.get? j = some kid →
        call kid = .httpError 401 false)
    (hlast : db.keyIds.get? (db.keyIds.length - 1) = some klast)
    (hsucc : call klast = .success p) :
    (∀ call2 : Nat → CallOutcome,
        (routeChat db call2 provider now).calls.Nodup ∧
        (routeChat db call2 provider now).calls.length ≤ db.keyIds.length) ∧
    (routeChat db call provider now).calls = db.keyIds ∧
    (routeChat db call provider now).result = .success p klast := by
  have hmem0 : k0 ∈ db.keyIds := initialSelectedKey_mem hsel
  have hlen : db.keys.length = db.keyIds.length := by simp [DB.keyIds]
  have hpos : 0 < db.keyIds.length := by
    by_contra hz
    push_neg at hz
    rw [List.get?_eq_none.mpr (by omega)] at hfirst
    cases hfirst
  constructor
  · intro call2
    have hmain := routeLoop_calls_nodup call2 provider now db.keyIds
      (db.keys.length + 1) db (some k0) [k0] [] 0 rfl
      (by intro x hx; rcases List.mem_singleton.mp hx with rfl; exact hmem0)
      (List.nodup_nil) (by intro x hx; cases hx)
      (by intro k hk; cases hk; exact ⟨List.mem_singleton_self _, by intro h; cases h⟩)
    constructor
    · have := hmain.1
      unfold routeChat
      rw [hsel]
      exact this
    · have hsub := hmain.2
      have hnd := hmain.1
      unfold routeChat
      rw [hsel]
      exact (hnd.subperm hsub).length_le
  · have hscen := routeLoop_scenario call provider now db.keyIds hnodup p klast
      hlast hsucc hfail (db.keyIds.length - 1) 0 k0 db [k0] [] 0
      (db.keys.length + 1) (by omega) hfirst rfl havail
      (by intro x hx; rcases List.mem_singleton.mp hx with rfl; exact ⟨0, le_refl _, hfirst⟩)
      (by omega)
    unfold routeChat
    rw [hsel]
    rw [hscen]
    simp

/-- Witness for C2: three credentials created in order 1, 2, 3; 1 and 2
fail with 401 and 3 succeeds with payload 9. -/
theorem routeChat_each_credential_at_most_once_witness :
    ((routeChat ⟨[⟨1, none, true⟩, ⟨2, none, false⟩, ⟨3, none, false⟩]⟩
        (fun k => if k = 3 then .success 9 else .httpError 401 false) "google" 0).calls
      = [1, 2, 3]) ∧
    ((routeChat ⟨[⟨1, none, true⟩, ⟨2, none, false⟩, ⟨3, none, false⟩]⟩
        (fun k => if k = 3 then .success 9 else .httpError 401 false) "google" 0).result
      = .success 9 3) :=
  (routeChat_each_credential_at_most_once
    ⟨[⟨1, none, true⟩, ⟨2, none, false⟩, ⟨3, none, false⟩]⟩
    (fun k => if k = 3 then .success 9 else .httpError 401 false) "google" 0 9 3 1
    (by decide) (by decide) (by decide) (by decide)
    (by
      intro j kid hj hg
      simp only [DB.keyIds, List.map_cons, List.map_nil, List.length_cons,
        List.length_nil] at hj hg
      have hj2 : j = 0 ∨ j = 1 := by omega
      rcases hj2 with rfl | rfl
      · simp only [List.get?_cons_zero, Option.some.injEq] at hg
        subst hg; decide
      · simp only [List.get?_cons_succ, List.get?_cons_zero, Option.some.injEq] at hg
        subst hg; decide)
    (by decide) (by decide)).2

/-! ## Non-key errors propagate immediately (C3) and the missing-credential
failure mode (C6) -/

/-- C3 (amended): every upstream error that the router's classifier does not
mark key-shaped — which, unlike the claim's reading, excludes no HTTP 400
from the `xai` provider, since those are all treated as key errors — is
propagated to the caller on its first occurrence with its own status code,
zero failover attempts and a single upstream call. -/
theorem routeChat_non_key_error_propagates_immediately
    (db : DB) (call : Nat → CallOutcome) (provider : String) (now : Nat)
    (k0 code : Nat) (m : Bool)
    (hsel : initialSelectedKey db = some k0)
    (hcall : call k0 = .httpError code m)
    (hnk : isKeyErrorCode provider code m = false) :
    routeChat db call provider now = ⟨[k0], 0, .httpFailure code .upstreamError⟩ := by
  unfold routeChat
  rw [hsel]
  simp [routeLoop, hcall, hnk]

/-- Witness for the amended C3: an upstream 502 from the first credential of
a two-credential store is surfaced as-is with no failover. -/
theorem routeChat_non_key_error_propagates_immediately_witness :
    routeChat ⟨[⟨1, none, true⟩, ⟨2, none, false⟩]⟩
        (fun _ => .httpError 502 false) "google" 0
      = ⟨[1], 0, .httpFailure 502 .upstreamError⟩ :=
  routeChat_non_key_error_propagates_immediately _ _ "google" 0 1 502 false
    (by decide) (by decide) (by decide)

/-- Counterexample to C3 as stated: for the `x-ai` provider an upstream
HTTP 400 whose message does not mention the API key is not propagated — the
router classifies it key-shaped, performs one failover and calls a second
credential, which here succeeds. -/
theorem routeChat_xai_400_retried_counterexample :
    routeChat ⟨[⟨1, none, true⟩, ⟨2, none, false⟩]⟩
        (fun k => if k = 1 then .httpError 400 false else .success 7) "xai" 0
      = ⟨[1, 2], 1, .success 7 2⟩ := by
  decide

/-- C6 (amended): when no credential is selected for the (owner, provider)
pair, the router's failover entry runs once with the synthetic marker, the
rotation necessarily finds nothing, and the request fails immediately — no
upstream call — with HTTP 503 ("No usable API key available"), not with the
400 the specification names. -/
theorem routeChat_no_selected_key_503
    (db : DB) (call : Nat → CallOutcome) (provider : String) (now : Nat)
    (hsel : initialSelectedKey db = none) :
    routeChat db call provider now = ⟨[], 1, .httpFailure 503 .noUsableKey⟩ := by
  unfold routeChat
  rw [hsel]
  simp [routeLoop, attempt_marker_eq]

/-- Witness for the amended C6 at a store whose only credential is not
selected. -/
theorem routeChat_no_selected_key_503_witness :
    routeChat ⟨[⟨5, none, false⟩]⟩ (fun _ => .success 0) "google" 0
      = ⟨[], 1, .httpFailure 503 .noUsableKey⟩ :=
  routeChat_no_selected_key_503 _ _ "google" 0 (by decide)

/-- Counterexample to C6 as stated: with no credential configured the
request fails with HTTP 503, not the claimed HTTP 400. -/
theorem routeChat_no_credential_503_not_400_counterexample :
    (routeChat ⟨[]⟩ (fun _ => .success 0) "google" 0).result.statusCode? = some 503 ∧
    (routeChat ⟨[]⟩ (fun _ => .success 0) "google" 0).result.statusCode? ≠ some 400 ∧
    (routeChat ⟨[]⟩ (fun _ => .success 0) "google" 0).calls = [] := by
  decide

/-! ## The rotation-selection policy (C5) -/

theorem get?_some_lt {l : List Nat} {i x : Nat} (h : l.get? i = some x) :
    i < l.length := by
  by_contra hge
  push_neg at hge
  rw [List.get?_eq_none.mpr hge] at h
  cases h

theorem availableIds_nodup {db : DB} (h : db.keyIds.Nodup) :
    db.availableIds.Nodup := by
  have hsub : db.availableIds.Sublist db.keyIds :=
    List.Sublist.map _ (List.filter_sublist db.keys)
  exact h.sublist hsub

/-- A wrapped offset reaching any other position of the circular creation
order in fewer than a full revolution. -/
theorem wrap_offset_exists {N i jx : Nat} (hiN : i < N) (hjN : jx < N) (hne : jx ≠ i) :
    ∃ e, 1 ≤ e ∧ e < N ∧ (i + e) % N = jx := by
  rcases Nat.lt_or_ge i jx with h | h
  · refine ⟨jx - i, by omega, by omega, ?_⟩
    have h1 : i + (jx - i) = jx := by omega
    rw [h1, Nat.mod_eq_of_lt hjN]
  · have hlt : jx < i := by omega
    refine ⟨jx + N - i, by omega, by omega, ?_⟩
    have h1 : i + (jx + N - i) = N + jx := by omega
    rw [h1, Nat.add_mod_left, Nat.mod_eq_of_lt hjN]

/-- Soundness of the round-robin scan: a returned id sits at some wrapped
offset in the scanned window, is available, and every strictly earlier
offset in the window holds an unavailable id. -/
theorem rotateScan_first (allIds availIds : List Nat) (fidx : Nat) :
    ∀ steps j nid, rotateScan allIds availIds fidx steps j = some nid →
      ∃ d, j ≤ d ∧ d < j + steps ∧
        allIds.get? ((fidx + d) % allIds.length) = some nid ∧ nid ∈ availIds ∧
        ∀ e kid2, j ≤ e → e < d →
          allIds.get? ((fidx + e) % allIds.length) = some kid2 → kid2 ∉ availIds := by
  intro steps
  induction steps with
  | zero => intro j nid h; simp [rotateScan] at h
  | succ n ih =>
      intro j nid h
      unfold rotateScan at h
      cases hg : allIds.get? ((fidx + j) % allIds.length) with
      | none => rw [hg] at h; exact absurd h (by simp)
      | some c =>
          rw [hg] at h
          by_cases hc : c ∈ availIds
          · simp only [hc, if_true, Option.some.injEq] at h
            subst h
            exact ⟨j, le_refl _, by omega, hg, hc, fun e kid2 he1 he2 _ => by omega⟩
          · simp only [hc, if_false] at h
            obtain ⟨d, hd1, hd2, hd3, hd4, hd5⟩ := ih (j + 1) nid h
            refine ⟨d, by omega, by omega, hd3, hd4, ?_⟩
            intro e kid2 he1 he2 hge
            rcases Nat.eq_or_lt_of_le he1 with rfl | hegt
            · rw [hge] at hg
              cases hg
              exact hc
            · exact hd5 e kid2 (by omega) he2 hge

/-- Completeness of the round-robin scan: if some offset of the scanned
window holds an available id, the scan returns one. -/
theorem rotateScan_isSome (allIds availIds : List Nat) (fidx : Nat) :
    ∀ steps j,
      (∃ d kid2, j ≤ d ∧ d < j + steps ∧
        allIds.get? ((fidx + d) % allIds.length) = some kid2 ∧ kid2 ∈ availIds) →
      (rotateScan allIds availIds fidx steps j).isSome := by
  intro steps
  induction steps with
  | zero =>
      intro j ⟨d, kid2, hd1, hd2, _, _⟩
      omega
  | succ n ih =>
      intro j hex
      obtain ⟨d, kid2, hd1, hd2, hd3, hd4⟩ := hex
      unfold rotateScan
      cases hg : allIds.get? ((fidx + j) % allIds.length) with
      | none =>
          exfalso
          rcases Nat.eq_zero_or_pos allIds.length with hz | hpos
          · rw [List.length_eq_zero.mp hz] at hd3
            simp at hd3
          · have hmlt := Nat.mod_lt (fidx + j) hpos
            have hge := List.get?_eq_none.mp hg
            omega
      | some c =>
          by_cases hc : c ∈ availIds
          · simp [hc]
          · simp only [hc, if_false]
            apply ih (j + 1)
            refine ⟨d, kid2, ?_, by omega, hd3, hd4⟩
            rcases Nat.eq_or_lt_of_le hd1 with rfl | hgt
            · rw [hd3] at hg
              cases hg
              exact absurd hd4 hc
            · omega

/-- C5 (amended): when failover selects a replacement after a non-429
failure, the candidate set is exactly the credentials of the (owner,
provider) pair whose `disabled_until` is null — a quarantine timestamp
already in the past does not re-qualify a credential — ordered by creation
time, and the chosen credential is the first such candidate strictly after
the failed credential in a round-robin over the creation-time ordering,
wrapping around; conversely, whenever some credential other than the failed
one has `disabled_until` null, a replacement is found. -/
theorem attempt_rotation_policy
    (db : DB) (fid now code i : Nat)
    (hnodup : db.keyIds.Nodup)
    (hcode : code ≠ 429)
    (hi : db.keyIds.get? i = some fid) :
    (∀ nid, (attemptAutomaticFailover db (some fid) code now).1 = some nid →
        nid ∈ db.availableIds ∧ nid ≠ fid ∧
        ∃ d, 1 ≤ d ∧ d ≤ db.keyIds.length ∧
          db.keyIds.get? ((i + d) % db.keyIds.length) = some nid ∧
          ∀ e kid2, 1 ≤ e → e < d →
            db.keyIds.get? ((i + e) % db.keyIds.length) = some kid2 →
            kid2 ∉ db.availableIds) ∧
    ((∃ k ∈ db.keys, k.disabledUntil = none ∧ k.id ≠ fid) →
        (attemptAutomaticFailover db (some fid) code now).1.isSome) := by
  have hq := quarantine_noop db fid code now hcode
  have hiN : i < db.keyIds.length := get?_some_lt hi
  have hpy : pyIndex db.keyIds fid = some i := pyIndex_of_nodup_get? _ i fid hnodup hi
  constructor
  · intro nid hr
    cases hA : attemptAutomaticFailover db (some fid) code now with
    | mk o db1 =>
        rw [hA] at hr
        dsimp only at hr
        subst hr
        obtain ⟨i2, hpy2, hguard, hrot, _⟩ := attempt_some_inv hA
        rw [hq] at hpy2 hguard hrot
        rw [hpy] at hpy2
        rw [show i2 = i from (Option.some.inj hpy2).symm] at hrot
        obtain ⟨d, hd1, hd2, hd3, hd4, hd5⟩ := rotateScan_first _ _ _ _ _ _ hrot
        have hdN : d ≤ db.keyIds.length := by omega
        refine ⟨hd4, ?_, d, hd1, hdN, hd3, hd5⟩
        intro heq
        subst heq
        -- the scan returned the failed credential itself: then it made a
        -- full revolution with nothing else available, contradicting the
        -- emptiness guard
        have hdi : (i + d) % db.keyIds.length = i := by
          apply @List.getElem?_inj _ _ _ db.keyIds (Nat.mod_lt _ (by omega)) hnodup
          rw [← List.get?_eq_getElem?, ← List.get?_eq_getElem?, hd3, hi]
        have hdN2 : d = db.keyIds.length := by
          rcases Nat.lt_or_ge d db.keyIds.length with hlt | hge
          · exfalso
            have : (i + d) % db.keyIds.length = i → d = 0 := by
              intro hmod
              rcases Nat.lt_or_ge (i + d) db.keyIds.length with ha | hb
              · rw [Nat.mod_eq_of_lt ha] at hmod; omega
              · have h1 : i + d - db.keyIds.length < db.keyIds.length := by omega
                have h2 : i + d = (i + d - db.keyIds.length) + db.keyIds.length := by
                  omega
                rw [h2, Nat.add_mod_right, Nat.mod_eq_of_lt h1] at hmod
                omega
            have := this hdi
            omega
          · omega
        -- some available id differs from the failed one
        have hnempty : db.availableIds ≠ [] := fun he => hguard (Or.inl he)
        have hnodav : db.availableIds.Nodup := availableIds_nodup hnodup
        have hex : ∃ x ∈ db.availableIds, x ≠ nid := by
          by_contra hall
          push_neg at hall
          apply hguard
          right
          cases hav : db.availableIds with
          | nil => exact absurd hav hnempty
          | cons x rest =>
              have hx : x = nid := hall x (by rw [hav]; exact List.mem_cons_self _ _)
              have hrest : rest = [] := by
                cases hrest : rest with
                | nil => rfl
                | cons y ys =>
                    have hy : y = nid := hall y (by
                      rw [hav, hrest]
                      exact List.mem_cons_of_mem _ (List.mem_cons_self _ _))
                    exfalso
                    rw [hav, hrest] at hnodav
                    rw [List.nodup_cons] at hnodav
                    exact hnodav.1 (by
                      rw [hx, ← hy]
                      exact List.mem_cons_self _ _)
              rw [hx, hrest]
        obtain ⟨x, hxav, hxne⟩ := hex
        have hxmem : x ∈ db.keyIds := availableIds_subset_keyIds db hxav
        obtain ⟨jx, hjx⟩ := List.mem_iff_get?.mp hxmem
        have hjxN : jx < db.keyIds.length := get?_some_lt hjx
        have hjxne : jx ≠ i := by
          intro he
          subst he
          rw [hjx] at hi
          exact hxne (Option.some.inj hi)
        obtain ⟨e, he1, he2, he3⟩ := wrap_offset_exists hiN hjxN hjxne
        exact hd5 e x he1 (by omega) (by rw [he3]; exact hjx) hxav
  · intro ⟨k, hk, hdis, hkne⟩
    have hkmem : k.id ∈ db.availableIds := by
      simp only [DB.availableIds, List.mem_map]
      exact ⟨k, List.mem_filter.mpr ⟨hk, by simp [hdis]⟩, rfl⟩
    have hkmem2 : k.id ∈ db.keyIds := availableIds_subset_keyIds db hkmem
    obtain ⟨jx, hjx⟩ := List.mem_iff_get?.mp hkmem2
    have hjxN : jx < db.keyIds.length := get?_some_lt hjx
    have hjxne : jx ≠ i := by
      intro he
      subst he
      rw [hjx] at hi
      exact hkne (Option.some.inj hi)
    obtain ⟨e, he1, he2, he3⟩ := wrap_offset_exists hiN hjxN hjxne
    have hne : ¬ (db.keyIds = []) := by
      intro he
      rw [he] at hiN
      simp at hiN
    have hguard : ¬ (db.availableIds = [] ∨ db.availableIds = [fid]) := by
      rintro (he | he)
      · rw [he] at hkmem; cases hkmem
      · rw [he] at hkmem
        exact hkne (List.mem_singleton.mp hkmem)
    have hscan : (rotateScan db.keyIds db.availableIds i db.keyIds.length 1).isSome :=
      rotateScan_isSome _ _ _ _ 1
        ⟨e, k.id, he1, by omega, by rw [he3]; exact hjx, hkmem⟩
    unfold attemptAutomaticFailover
    simp only [hq, hpy]
    rw [if_neg hne, if_neg hguard]
    cases hrot : rotateScan db.keyIds db.availableIds i db.keyIds.length 1 with
    | none => rw [hrot] at hscan; cases hscan
    | some nid => simp

/-- Witness for the amended C5: three credentials 1, 2, 3 with credential 2
quarantined (null check fails); after credential 1 fails, the rotation
skips 2 and selects 3, the first available id strictly after 1. -/
theorem attempt_rotation_policy_witness :
    ((attemptAutomaticFailover ⟨[⟨1, none, true⟩, ⟨2, some 900, false⟩, ⟨3, none, false⟩]⟩
        (some 1) 401 100).1 = some 3) ∧
    (3 ∈ (DB.mk [⟨1, none, true⟩, ⟨2, some 900, false⟩, ⟨3, none, false⟩]).availableIds ∧
      3 ≠ 1 ∧
      ∃ d, 1 ≤ d ∧ d ≤ 3 ∧
        (DB.mk [⟨1, none, true⟩, ⟨2, some 900, false⟩, ⟨3, none, false⟩]).keyIds.get?
            ((0 + d) % 3) = some 3 ∧
        ∀ e kid2, 1 ≤ e → e < d →
          (DB.mk [⟨1, none, true⟩, ⟨2, some 900, false⟩, ⟨3, none, false⟩]).keyIds.get?
              ((0 + e) % 3) = some kid2 →
          kid2 ∉ (DB.mk [⟨1, none, true⟩, ⟨2, some 900, false⟩, ⟨3, none, false⟩]).availableIds) := by
  constructor
  · decide
  · exact (attempt_rotation_policy
      ⟨[⟨1, none, true⟩, ⟨2, some 900, false⟩, ⟨3, none, false⟩]⟩ 1 100 401 0
      (by decide) (by decide) (by decide)).1 3 (by decide)

/-- Counterexample to C5 as stated: with credential 1 failed and credential
2 whose quarantine timestamp lies in the past, the spec's candidate rule
selects credential 2, but the code's `IS NULL` filter leaves no candidate
and failover returns nothing. -/
theorem attempt_expired_quarantine_counterexample :
    (attemptAutomaticFailover ⟨[⟨1, none, true⟩, ⟨2, some 0, false⟩]⟩
        (some 1) 401 100).1 = none ∧
    claimRotateNext ⟨[⟨1, none, true⟩, ⟨2, some 0, false⟩]⟩ 1 100 = some 2 := by
  decide

/-! ## Provider resolution (C8, C10) -/

theorem data_append (s t : String) : (s ++ t).data = s.data ++ t.data := by
  cases s
  cases t
  rfl

theorem listStartsWith_self_append : ∀ (p r : List Char), listStartsWith (p ++ r) p = true := by
  intro p r
  induction p with
  | nil => cases r <;> rfl
  | cons a as ih => simp [listStartsWith, ih]

theorem strStarts_self_append (p r : String) : strStarts (p ++ r) p = true := by
  unfold strStarts
  rw [data_append]
  exact listStartsWith_self_append _ _

theorem listStartsWith_cons_ne {a b : Char} {as bs : List Char} (h : ¬ (a = b)) :
    listStartsWith (a :: as) (b :: bs) = false := by
  simp [listStartsWith, h]

theorem strStarts_append_ne (p r q : String) (a b : Char) (ap aq : List Char)
    (hp : p.data = a :: ap) (hq : q.data = b :: aq) (h : ¬ (a = b)) :
    strStarts (p ++ r) q = false := by
  unfold strStarts
  rw [data_append, hp, hq, List.cons_append]
  exact listStartsWith_cons_ne h

theorem dropStr_append (p r : String) (n : Nat) (h : p.data.length = n) :
    dropStr (p ++ r) n = r := by
  unfold dropStr
  rw [data_append, ← h, List.drop_left]

theorem str_append_ne_empty (p r : String) (hp : p.data ≠ []) : ¬ (p ++ r = "") := by
  intro h
  apply hp
  have hd : (p ++ r).data = ([] : List Char) := by rw [h]
  rw [data_append] at hd
  exact (List.append_eq_nil.mp hd).1

/-- C8 (amended): an identifier carrying a known provider tag resolves to
that tag's provider with the tag stripped, provided the remainder does not
contain a model-family token of a provider tested earlier in the chain
(`google/` always wins; `x-ai/` holds unless "gemini" occurs; `sber/` unless
"gemini" or "grok"; `perplexity/` unless "gemini", "grok" or "gigachat");
a non-empty identifier with no known tag and no known token fails with
HTTP 404; the empty identifier fails with HTTP 400. -/
theorem providerResolution_amended :
    (∀ rest : String, determineProvider ("google/" ++ rest) = .ok .google ∧
        stripProviderPfx ("google/" ++ rest) = rest) ∧
    (∀ rest : String, strContains (lowerStr ("x-ai/" ++ rest)) "gemini" = false →
        determineProvider ("x-ai/" ++ rest) = .ok .xai ∧
        stripProviderPfx ("x-ai/" ++ rest) = rest) ∧
    (∀ rest : String, strContains (lowerStr ("sber/" ++ rest)) "gemini" = false →
        strContains (lowerStr ("sber/" ++ rest)) "grok" = false →
        determineProvider ("sber/" ++ rest) = .ok .gigachat ∧
        stripProviderPfx ("sber/" ++ rest) = rest) ∧
    (∀ rest : String, strContains (lowerStr ("perplexity/" ++ rest)) "gemini" = false →
        strContains (lowerStr ("perplexity/" ++ rest)) "grok" = false →
        strContains (lowerStr ("perplexity/" ++ rest)) "gigachat" = false →
        determineProvider ("perplexity/" ++ rest) = .ok .perplexity ∧
        stripProviderPfx ("perplexity/" ++ rest) = rest) ∧
    (∀ m : String, ¬ (m = "") → googleTok m = false → xaiTok m = false →
        gigachatTok m = false → perplexityTok m = false →
        determineProvider m = .error ⟨404⟩) ∧
    determineProvider "" = .error ⟨400⟩ := by
  refine ⟨?_, ?_, ?_, ?_, ?_, rfl⟩
  · intro rest
    have hg : googleTok ("google/" ++ rest) = true := by
      unfold googleTok
      rw [strStarts_self_append]
      simp
    have hne := str_append_ne_empty "google/" rest (by decide)
    constructor
    · simp [determineProvider, hne, hg]
    · unfold stripProviderPfx
      rw [strStarts_self_append, if_pos rfl]
      exact dropStr_append _ _ _ (by decide)
  · intro rest hng
    have hgs : strStarts ("x-ai/" ++ rest) "google/" = false :=
      strStarts_append_ne _ _ _ 'x' 'g' _ _ rfl rfl (by decide)
    have hg : googleTok ("x-ai/" ++ rest) = false := by
      unfold googleTok
      rw [hgs, hng]
      simp
    have hx : xaiTok ("x-ai/" ++ rest) = true := by
      unfold xaiTok
      rw [strStarts_self_append]
      simp
    have hne := str_append_ne_empty "x-ai/" rest (by decide)
    constructor
    · simp [determineProvider, hne, hg, hx]
    · unfold stripProviderPfx
      rw [hgs, strStarts_self_append, if_neg (by decide), if_pos rfl]
      exact dropStr_append _ _ _ (by decide)
  · intro rest hng hnx
    have hgs : strStarts ("sber/" ++ rest) "google/" = false :=
      strStarts_append_ne _ _ _ 's' 'g' _ _ rfl rfl (by decide)
    have hxs : strStarts ("sber/" ++ rest) "x-ai/" = false :=
      strStarts_append_ne _ _ _ 's' 'x' _ _ rfl rfl (by decide)
    have hg : googleTok ("sber/" ++ rest) = false := by
      unfold googleTok
      rw [hgs, hng]
      simp
    have hx : xaiTok ("sber/" ++ rest) = false := by
      unfold xaiTok
      rw [hxs, hnx]
      simp
    have hs : gigachatTok ("sber/" ++ rest) = true := by
      unfold gigachatTok
      rw [strStarts_self_append]
      simp
    have hne := str_append_ne_empty "sber/" rest (by decide)
    constructor
    · simp [determineProvider, hne, hg, hx, hs]
    · unfold stripProviderPfx
      rw [hgs, hxs, strStarts_self_append, if_neg (by decide), if_neg (by decide), if_pos rfl]
      exact dropStr_append _ _ _ (by decide)
  · intro rest hng hnx hns
    have hgs : strStarts ("perplexity/" ++ rest) "google/" = false :=
      strStarts_append_ne _ _ _ 'p' 'g' _ _ rfl rfl (by decide)
    have hxs : strStarts ("perplexity/" ++ rest) "x-ai/" = false :=
      strStarts_append_ne _ _ _ 'p' 'x' _ _ rfl rfl (by decide)
    have hss : strStarts ("perplexity/" ++ rest) "sber/" = false :=
      strStarts_append_ne _ _ _ 'p' 's' _ _ rfl rfl (by decide)
    have hg : googleTok ("perplexity/" ++ rest) = false := by
      unfold googleTok
      rw [hgs, hng]
      simp
    have hx : xaiTok ("perplexity/" ++ rest) = false := by
      unfold xaiTok
      rw [hxs, hnx]
      simp
    have hgi : gigachatTok ("perplexity/" ++ rest) = false := by
      unfold gigachatTok
      rw [hss, hns]
      simp
    have hp : perplexityTok ("perplexity/" ++ rest) = true := by
      unfold perplexityTok
      rw [strStarts_self_append]
      simp
    have hne := str_append_ne_empty "perplexity/" rest (by decide)
    constructor
    · simp [determineProvider, hne, hg, hx, hgi, hp]
    · unfold stripProviderPfx
      rw [hgs, hxs, hss, strStarts_self_append, if_neg (by decide), if_neg (by decide),
        if_neg (by decide), if_pos rfl]
      exact dropStr_append _ _ _ (by decide)
  · intro m hne hg hx hgi hp
    simp [determineProvider, hne, hg, hx, hgi, hp]

/-- Witness for the amended C8: `x-ai/grok-2` resolves to the x-ai provider
with the tag stripped, and the empty identifier fails with 400. -/
theorem providerResolution_amended_witness :
    (determineProvider ("x-ai/" ++ "grok-2") = .ok .xai ∧
      stripProviderPfx ("x-ai/" ++ "grok-2") = "grok-2") ∧
    determineProvider "" = .error ⟨400⟩ :=
  ⟨providerResolution_amended.2.1 "grok-2" (by decide),
   providerResolution_amended.2.2.2.2.2⟩

/-- Counterexample to C8 as stated: `x-ai/gemini` carries the known
provider tag `x-ai/`, yet the resolver returns google — the "gemini"
substring test of the earlier branch wins over the prefix. -/
theorem providerResolution_prefix_counterexample :
    determineProvider "x-ai/gemini" = .ok .google ∧
    ¬ (Except.ok Provider.google = (.ok .xai : Except HttpErr Provider)) := by
  refine ⟨rfl, ?_⟩
  intro h
  exact absurd (Except.ok.inj h) (by decide)

/-- C10: provider determination is a total deterministic function of the
identifier string alone (it is a Lean function by construction), and the
precedence the code fixes is google, then x-ai, then gigachat, then
perplexity: the first branch whose prefix-or-token test matches wins. -/
theorem determineProvider_precedence (m : String) (hne : ¬ (m = "")) :
    (googleTok m = true → determineProvider m = .ok .google) ∧
    (googleTok m = false → xaiTok m = true → determineProvider m = .ok .xai) ∧
    (googleTok m = false → xaiTok m = false → gigachatTok m = true →
        determineProvider m = .ok .gigachat) ∧
    (googleTok m = false → xaiTok m = false → gigachatTok m = false →
        perplexityTok m = true → determineProvider m = .ok .perplexity) := by
  refine ⟨?_, ?_, ?_, ?_⟩
  · intro h
    simp [determineProvider, hne, h]
  · intro h1 h2
    simp [determineProvider, hne, h1, h2]
  · intro h1 h2 h3
    simp [determineProvider, hne, h1, h2, h3]
  · intro h1 h2 h3 h4
    simp [determineProvider, hne, h1, h2, h3, h4]

/-- Witness for C10: `gemini-grok-mix` matches the tokens of both google
and x-ai; google is tested first and wins. -/
theorem determineProvider_precedence_witness :
    googleTok "gemini-grok-mix" = true ∧ xaiTok "gemini-grok-mix" = true ∧
    determineProvider "gemini-grok-mix" = .ok .google :=
  ⟨by decide, by decide,
   (determineProvider_precedence "gemini-grok-mix" (by decide)).1 (by decide)⟩

/-! ## Gemini message normalization (C9) -/

theorem collapseRoles_head_ne (l : List ChatMessage) :
    ∀ last h, (collapseRoles last l).head? = some h → ¬ (some h.role = last) := by
  induction l with
  | nil => intro last h hh; simp [collapseRoles] at hh
  | cons m rest ih =>
      intro last h hh
      unfold collapseRoles at hh
      by_cases hm : some m.role = last
      · rw [if_pos hm] at hh
        exact ih last h hh
      · rw [if_neg hm] at hh
        simp only [List.head?_cons, Option.some.injEq] at hh
        subst hh
        exact hm

theorem collapseRoles_chain (l : List ChatMessage) :
    ∀ last, List.Chain' (fun a b => a.role ≠ b.role) (collapseRoles last l) := by
  induction l with
  | nil => intro last; simp [collapseRoles]
  | cons m rest ih =>
      intro last
      unfold collapseRoles
      by_cases hm : some m.role = last
      · rw [if_pos hm]
        exact ih last
      · rw [if_neg hm]
        rw [List.chain'_cons']
        refine ⟨?_, ih (some m.role)⟩
        intro y hy he
        exact collapseRoles_head_ne rest (some m.role) y hy (by rw [he])

theorem collapseRoles_subset (l : List ChatMessage) :
    ∀ last, collapseRoles last l ⊆ l := by
  induction l with
  | nil => intro last; simp [collapseRoles]
  | cons m rest ih =>
      intro last
      unfold collapseRoles
      by_cases hm : some m.role = last
      · rw [if_pos hm]
        exact fun x hx => List.mem_cons_of_mem _ (ih last hx)
      · rw [if_neg hm]
        intro x hx
        rcases List.mem_cons.mp hx with rfl | hx2
        · exact List.mem_cons_self _ _
        · exact List.mem_cons_of_mem _ (ih _ hx2)

/-- C9: normalization for the prompt+history provider — the first processed
system message is concatenated (when its text is non-empty) before the
chronologically last user message to form the prompt; the history never
contains a system role (later system messages are dropped) and never has
two consecutive entries of the same converted role; and when no user
message survives filtering, conversion yields the empty prompt and the
route rejects the request with HTTP 400 instead of calling upstream. -/
theorem convertMessages_gemini_normalization (msgs : List RawMsg) :
    (∀ sm lu, (processMessages msgs).find? (fun m => m.role = "system") = some sm →
        (processMessages msgs).reverse.find? (fun m => m.role = "user") = some lu →
        sm.text ≠ "" →
        (convertMessages msgs).1 = sm.text ++ "\n\n" ++ lu.text) ∧
    (∀ lu, (processMessages msgs).find? (fun m => m.role = "system") = none →
        (processMessages msgs).reverse.find? (fun m => m.role = "user") = some lu →
        (convertMessages msgs).1 = lu.text) ∧
    (∀ cm ∈ (convertMessages msgs).2, cm.role = "user" ∨ cm.role = "model") ∧
    List.Chain' (fun a b => a.role ≠ b.role) (convertMessages msgs).2 ∧
    ((processMessages msgs).reverse.find? (fun m => m.role = "user") = none →
        convertMessages msgs = ("", []) ∧ googlePromptCheck msgs = .error ⟨400⟩) := by
  by_cases hp : processMessages msgs = []
  · have hconv : convertMessages msgs = ("", []) := by
      unfold convertMessages
      rw [if_pos hp]
    refine ⟨?_, ?_, ?_, ?_, ?_⟩
    · intro sm lu hs hu hsm
      rw [hp] at hs
      cases hs
    · intro lu hs hu
      rw [hp] at hu
      cases hu
    · intro cm hcm
      rw [hconv] at hcm
      cases hcm
    · rw [hconv]
      simp
    · intro hu
      refine ⟨hconv, ?_⟩
      unfold googlePromptCheck
      rw [hconv]
      rfl
  · cases hu : (processMessages msgs).reverse.find? (fun m => m.role = "user") with
    | none =>
        have hconv : convertMessages msgs = ("", []) := by
          unfold convertMessages
          rw [if_neg hp, hu]
        refine ⟨?_, ?_, ?_, ?_, ?_⟩
        · intro sm lu hs hu2 hsm
          cases hu2
        · intro lu hs hu2
          cases hu2
        · intro cm hcm
          rw [hconv] at hcm
          cases hcm
        · rw [hconv]
          simp
        · intro _
          refine ⟨hconv, ?_⟩
          unfold googlePromptCheck
          rw [hconv]
          rfl
    | some lu0 =>
        have hsnd : (convertMessages msgs).2 =
            collapseRoles none ((( processMessages msgs).filter (fun m =>
              ¬ (some m.idx = ((processMessages msgs).find? (fun m2 => m2.role = "system")).map (·.idx)) ∧
                m.idx ≠ lu0.idx ∧ m.role ≠ "system")).map
              (fun m => ChatMessage.mk (if m.role = "user" then "user" else "model") m.text)) := by
          unfold convertMessages
          rw [if_neg hp, hu]
        have hfst : (convertMessages msgs).1 =
            (match (processMessages msgs).find? (fun m => m.role = "system") with
              | some sm => if sm.text ≠ "" then sm.text ++ "\n\n" ++ lu0.text else lu0.text
              | none => lu0.text) := by
          unfold convertMessages
          rw [if_neg hp, hu]
        refine ⟨?_, ?_, ?_, ?_, ?_⟩
        · intro sm lu hs hu2 hsm
          cases hu2
          rw [hfst, hs]
          exact if_pos hsm
        · intro lu hs hu2
          cases hu2
          rw [hfst, hs]
        · intro cm hcm
          rw [hsnd] at hcm
          have hcm2 := collapseRoles_subset _ _ hcm
          obtain ⟨m, _, rfl⟩ := List.mem_map.mp hcm2
          by_cases hr : m.role = "user"
          · left; simp [hr]
          · right; simp [hr]
        · rw [hsnd]
          exact collapseRoles_chain _ _
        · intro hu2
          cases hu2

/-- Witness for C9 on a four-message conversation with a system message,
two turns and a final user message. -/
theorem convertMessages_gemini_normalization_witness :
    (convertMessages [⟨"system", .str "sys"⟩, ⟨"user", .str "u1"⟩,
        ⟨"assistant", .str "a1"⟩, ⟨"user", .str "u2"⟩]).1
      = "sys" ++ "\n\n" ++ "u2" :=
  (convertMessages_gemini_normalization _).1 ⟨0, "system", "sys"⟩ ⟨3, "user", "u2"⟩
    (by decide) (by decide) (by decide)

/-! ## Streaming failover after forwarded output (C4) and the Grok stream
sentinels (C7) -/

/-- C4 (evaluation at the failing input): with credential 1's upstream
stream yielding one content chunk and then raising a rate-limit error — the
shape GeminiService raises during stream iteration — the router forwards
the chunk, classifies the failure key-shaped and retries with credential 2,
re-streaming content the client already received.  No terminal error chunk
is emitted and a second upstream call happens after output was forwarded,
contrary to the claim. -/
theorem streamChat_retries_after_forwarded_chunk :
    streamChat ⟨[⟨1, none, true⟩, ⟨2, none, false⟩]⟩
        (fun k => if k = 1 then (["Hello"], some (.httpError 429 false))
                  else (["Hello world"], none))
        "google" 0
      = ⟨[.contentChunk "Hello", .contentChunk "Hello world", .doneSentinel],
          [1, 2], false⟩ := by
  decide

/-- C7 (evaluation at the failing input): for an upstream Grok stream of one
content delta, one finish delta and the upstream `[DONE]` line, the client
sees exactly one role chunk and one finish chunk but three `data: [DONE]`
sentinels (upstream passthrough at grok.py line 410, the generator's
trailing yield at line 492, and the router's own at model_router.py line
1247); and when the upstream reports usage, the finish-reason chunk is
emitted twice (grok.py lines 397-408). -/
theorem grokStream_done_and_finish_counts :
    countDone (grokRouterStream [.dataLine none (some "hi") none none,
        .dataLine none none (some "stop") none, .doneLine]) = 3 ∧
    countRole (grokRouterStream [.dataLine none (some "hi") none none,
        .dataLine none none (some "stop") none, .doneLine]) = 1 ∧
    countFinish (grokRouterStream [.dataLine none (some "hi") none none,
        .dataLine none none (some "stop") none, .doneLine]) = 1 ∧
    countFinish (grokRouterStream [.dataLine none (some "hi") none none,
        .dataLine none none (some "stop") (some ⟨1, 2, 3⟩), .doneLine]) = 2 := by
  decide

end Gateway
